import Mathlib

/-!
Shallow embedding of the net-cat chat server (src/main.go).

A `Session` is the Go `client` struct; Go pointer identity is modelled by the
numeric field `sid` (each live connection gets a distinct `sid`, exactly as
each `&client{...}` allocation yields a distinct pointer).  The shared
mutable globals (`clients`, `chatHistory`, `activeClients`) become fields of
`ServerState`; every line written to a client's buffered writer is recorded
as a `(sid, text)` pair appended to `outputs`, in program order.
`getTimeStamp` (wall clock) is passed in as a string parameter `ts`.  The
welcome banner and the username prompt are written straight on the raw
connection before registration, touch no shared state, and are outside the
claims, so they are not recorded in `outputs`.  `strings.ToLower` and
`strings.TrimSpace` are modelled on the ASCII / Latin-1 fragment exercised
by the protocol text.
-/

structure Session where
  sid : Nat
  username : String
  deriving DecidableEq, Repr

structure ServerState where
  clients : List Session
  chatHistory : List String
  activeClients : Nat
  outputs : List (Nat × String)
  deriving DecidableEq, Repr

/-- Join notice, main.go:155. -/
def joinMsg (u : String) : String := "\x1b[32;1m" ++ u ++ " has joined the chat\x1b[0m\n"

/-- Leave notice, main.go:163. -/
def leaveMsg (u : String) : String := "\x1b[31;1m" ++ u ++ " has left the chat\x1b[0m\n"

/-- Formatted chat line, main.go:180. -/
def chatMsg (ts u m : String) : String :=
  "\x1b[36m[" ++ ts ++ "][" ++ u ++ "]: " ++ m ++ "\x1b[0m\n"

/-- Echo sent to the sender alone on blank input, main.go:175. -/
def emptyEcho (ts u : String) : String := "\x1b[36m[" ++ ts ++ "][" ++ u ++ "]:\x1b[0m\n"

/-- Rejection text for connections over the ceiling, main.go:73. -/
def rejectionLine : String := "Maximum number of clients reached. Please try again later.\n"

/-- main.go:29. -/
def maxClients : Nat := 10

/-- Go `unicode.IsSpace` on the Latin-1 range: space, \t, \n, \v, \f, \r,
NEL (U+0085) and NBSP (U+00A0).  (The remaining Unicode space code points
are omitted; no claim depends on them.) -/
def goIsSpace (ch : Char) : Bool :=
  ch == ' ' || ch == '\t' || ch == '\n' || ch.toNat == 11 || ch.toNat == 12 ||
    ch == '\r' || ch.toNat == 133 || ch.toNat == 160

/-- Go `strings.TrimSpace`: drop leading and trailing white space. -/
def goTrimSpace (s : String) : String :=
  String.mk (((s.toList.dropWhile goIsSpace).reverse.dropWhile goIsSpace).reverse)

/-- Go `strings.ToLower` per character, on the ASCII fragment. -/
def goToLowerChar (ch : Char) : Char :=
  if 65 ≤ ch.toNat ∧ ch.toNat ≤ 90 then Char.ofNat (ch.toNat + 32) else ch

/-- Go `strings.ToLower`, on the ASCII fragment. -/
def goToLower (s : String) : String := String.mk (s.toList.map goToLowerChar)

/-- The recipients of one broadcast: the loop condition
`sender == nil || c != sender` of main.go:238.  `c != sender` is Go pointer
comparison, i.e. `sid` comparison here. -/
def fanTargets (sender : Option Session) (cs : List Session) : List Session :=
  match sender with
  | none => cs
  | some s => cs.filter (fun c => c.sid != s.sid)

/-- main.go:233-243.  Lock, write the message to every registered session
other than the excluded sender, flush each, unlock.  It does NOT touch
`chatHistory`; callers append under a separate lock acquisition. -/
def broadcastMessage (sender : Option Session) (msg : String) (st : ServerState) :
    ServerState :=
  { st with outputs := st.outputs ++ (fanTargets sender st.clients).map (fun c => (c.sid, msg)) }

/-- main.go:245-252.  Write the whole history, in order, to one session. -/
def sendChatHistory (c : Session) (st : ServerState) : ServerState :=
  { st with outputs := st.outputs ++ st.chatHistory.map (fun m => (c.sid, m)) }

/-- main.go:154-160.  Broadcast the join notice excluding the joiner, then
append it to the history under a fresh lock acquisition. -/
def notifyJoin (c : Session) (st : ServerState) : ServerState :=
  let st1 := broadcastMessage (some c) (joinMsg c.username) st
  { st1 with chatHistory := st1.chatHistory ++ [joinMsg c.username] }

/-- main.go:162-168.  Broadcast the leave notice with a nil sender (no
exclusion), then append it to the history. -/
def notifyLeave (c : Session) (st : ServerState) : ServerState :=
  let st1 := broadcastMessage none (leaveMsg c.username) st
  { st1 with chatHistory := st1.chatHistory ++ [leaveMsg c.username] }

/-- main.go:170-190.  Blank input: echo timestamp+name to the sender only
and return.  Otherwise: broadcast the formatted line excluding the sender,
echo it directly to the sender, append it to the history. -/
def sendMessage (ts : String) (sender : Session) (message : String) (st : ServerState) :
    ServerState :=
  if goTrimSpace message = "" then
    { st with outputs := st.outputs ++ [(sender.sid, emptyEcho ts sender.username)] }
  else
    let msg := chatMsg ts sender.username message
    let st1 := broadcastMessage (some sender) msg st
    let st2 := { st1 with outputs := st1.outputs ++ [(sender.sid, msg)] }
    { st2 with chatHistory := st2.chatHistory ++ [msg] }

/-- main.go:263-270.  Scan for the first entry identical to `c`, delete it,
stop; no-op when absent. -/
def removeClient (c : Session) : List Session → List Session
  | [] => []
  | x :: xs => if x.sid = c.sid then xs else x :: removeClient c xs

/-- main.go:138-152, on the stream of input lines.  Returns the chosen
username and the lines left for the message loop.  An empty submission
re-prompts; end of stream yields the literal "unknown". -/
def getUsername : List String → String × List String
  | [] => ("unknown", [])
  | l :: rest => if l = "" then getUsername rest else (l, rest)

/-- The scanner loop of main.go:117-125: each line either quits
(case-insensitively) or goes through `sendMessage`. -/
def messageLoop (ts : String) (c : Session) : List String → ServerState → ServerState
  | [], st => st
  | l :: rest, st =>
    if goToLower l = "/quit" then st
    else messageLoop ts c rest (sendMessage ts c l st)

/-- main.go:108-114: register the new session, broadcast its join notice,
replay the history to it — in that order. -/
def joinPhase (c : Session) (st : ServerState) : ServerState :=
  sendChatHistory c (notifyJoin c { st with clients := st.clients ++ [c] })

/-- main.go:127-135: close (pure I/O, not recorded), deregister, broadcast
the leave notice to everyone still registered, decrement the counter. -/
def teardown (c : Session) (st : ServerState) : ServerState :=
  let st1 := { st with clients := removeClient c st.clients }
  let st2 := notifyLeave c st1
  { st2 with activeClients := st2.activeClients - 1 }

/-- main.go:98-136: one whole connection lifecycle over its input lines. -/
def handleConnection (ts : String) (sid : Nat) (lines : List String) (st : ServerState) :
    ServerState :=
  let c : Session := ⟨sid, (getUsername lines).1⟩
  teardown c (messageLoop ts c (getUsername lines).2 (joinPhase c st))

/-- main.go:72-79: the admission check run for one accepted connection.
Returns the new state and whether the connection was admitted (handler
spawned) or rejected and closed. -/
def acceptOne (st : ServerState) (sid : Nat) : ServerState × Bool :=
  if maxClients ≤ st.activeClients then
    ({ st with outputs := st.outputs ++ [(sid, rejectionLine)] }, false)
  else
    ({ st with activeClients := st.activeClients + 1 }, true)

/-- The accept loop of main.go:65-80 run over a list of incoming connection
ids; returns the final state and the ids that were admitted. -/
def acceptLoop : ServerState → List Nat → ServerState × List Nat
  | st, [] => (st, [])
  | st, sid :: rest =>
    let r := acceptOne st sid
    let r2 := acceptLoop r.1 rest
    (r2.1, (if r.2 = true then [sid] else []) ++ r2.2)

/-- Registry operations, for stating the registry invariant over arbitrary
operation sequences. -/
inductive RegOp where
  | add : Session → RegOp
  | remove : Session → RegOp
  deriving DecidableEq, Repr

/-- `add` is the append of main.go:109; `remove` is `removeClient`. -/
def applyOp (l : List Session) : RegOp → List Session
  | RegOp.add c => l ++ [c]
  | RegOp.remove c => removeClient c l

def applyOps : List RegOp → List Session → List Session
  | [], l => l
  | op :: ops, l => applyOps ops (applyOp l op)

/-- Well-formedness of an operation sequence: every `add` registers a
session whose identity is fresh at that point — exactly what Go pointer
allocation guarantees for `&client{...}` in `handleConnection`. -/
def freshAddsB : List RegOp → List Session → Bool
  | [], _ => true
  | RegOp.add c :: ops, l =>
    (decide (c.sid ∉ l.map Session.sid)) && freshAddsB ops (l ++ [c])
  | RegOp.remove c :: ops, l => freshAddsB ops (removeClient c l)

/-- Lock/write/append events, for the lock-discipline claims.  `fanWrite`
is a write performed by the broadcast loop, `echoWrite` the sender's direct
echo, `histAppend` the history append. -/
inductive Ev where
  | lock : Ev
  | unlock : Ev
  | fanWrite : Nat → String → Ev
  | echoWrite : Nat → String → Ev
  | histAppend : String → Ev
  deriving DecidableEq, Repr

def evDelta : Ev → Int
  | Ev.lock => 1
  | Ev.unlock => -1
  | _ => 0

/-- Net number of lock acquisitions minus releases over a trace; on a
prefix of a trace this is the lock depth at that point. -/
def lockDelta (tr : List Ev) : Int := (tr.map evDelta).sum

def isFan : Ev → Bool
  | Ev.fanWrite _ _ => true
  | _ => false

def isAppend : Ev → Bool
  | Ev.histAppend _ => true
  | _ => false

def idxOfP (p : Ev → Bool) : List Ev → Option Nat
  | [] => none
  | e :: tr => if p e then some 0 else (idxOfP p tr).map (· + 1)

/-- Event trace of `broadcastMessage` (main.go:233-243): acquire the lock,
write to every non-excluded session, release (the deferred unlock). -/
def broadcastTrace (sender : Option Session) (msg : String) (cs : List Session) : List Ev :=
  Ev.lock :: (fanTargets sender cs).map (fun c => Ev.fanWrite c.sid msg) ++ [Ev.unlock]

/-- Event trace of `sendMessage` (main.go:170-190): for non-blank input,
the broadcast critical section, then the sender echo outside any lock, then
a second critical section for the history append. -/
def sendMessageTrace (ts : String) (sender : Session) (m : String) (cs : List Session) :
    List Ev :=
  if goTrimSpace m = "" then [Ev.echoWrite sender.sid (emptyEcho ts sender.username)]
  else
    broadcastTrace (some sender) (chatMsg ts sender.username m) cs
      ++ [Ev.echoWrite sender.sid (chatMsg ts sender.username m)]
      ++ [Ev.lock, Ev.histAppend (chatMsg ts sender.username m), Ev.unlock]

/-- The property claimed of a combined broadcast-and-append trace: from the
first fan-out write through the history append, the lock depth never drops
below one (one continuous hold). -/
def continuousLockSpan (tr : List Ev) : Bool :=
  match idxOfP isFan tr, idxOfP isAppend tr with
  | some i, some j =>
    (List.range tr.length).all
      (fun k => decide (i ≤ k → k ≤ j → 1 ≤ lockDelta (tr.take (k + 1))))
  | _, _ => true

/-- Concrete sessions and states for witnesses and counterexamples. -/
def alice : Session := ⟨0, "alice"⟩

def bob : Session := ⟨1, "bob"⟩

def st0 : ServerState := ⟨[], [], 0, []⟩

def stA : ServerState := ⟨[alice], ["m1"], 1, []⟩

def stAB : ServerState := ⟨[alice, bob], [], 2, []⟩

def stFull : ServerState := ⟨[alice, bob], [], 10, []⟩

lemma getUsername_all_empty (lines : List String) (h : ∀ l ∈ lines, l = "") :
    getUsername lines = ("unknown", []) := by
  induction lines with
  | nil => rfl
  | cons l rest ih =>
    have hl : l = "" := h l (List.mem_cons_self _ _)
    rw [getUsername, if_pos hl]
    exact ih fun x hx => h x (List.mem_cons_of_mem _ hx)

lemma filter_ne_fresh (l : List Session) (s : Nat) (h : ∀ x ∈ l, x.sid ≠ s) :
    l.filter (fun c => c.sid != s) = l := by
  induction l with
  | nil => rfl
  | cons x xs ih =>
    have hx : (x.sid != s) = true := by
      simpa [bne_iff_ne] using h x (List.mem_cons_self _ _)
    rw [List.filter_cons, if_pos hx]
    rw [ih fun y hy => h y (List.mem_cons_of_mem _ hy)]

lemma removeClient_sublist (c : Session) (l : List Session) :
    List.Sublist (removeClient c l) l := by
  induction l with
  | nil => exact List.Sublist.refl _
  | cons x xs ih =>
    rw [removeClient]
    by_cases hx : x.sid = c.sid
    · rw [if_pos hx]; exact List.Sublist.cons x (List.Sublist.refl xs)
    · rw [if_neg hx]; exact List.Sublist.cons₂ x ih

lemma removeClient_absent (c : Session) (l : List Session) (h : ∀ x ∈ l, x.sid ≠ c.sid) :
    removeClient c l = l := by
  induction l with
  | nil => rfl
  | cons x xs ih =>
    rw [removeClient, if_neg (h x (List.mem_cons_self _ _))]
    rw [ih fun y hy => h y (List.mem_cons_of_mem _ hy)]

lemma removeClient_append_self (c : Session) (l : List Session)
    (h : ∀ x ∈ l, x.sid ≠ c.sid) : removeClient c (l ++ [c]) = l := by
  induction l with
  | nil => simp [removeClient]
  | cons x xs ih =>
    rw [List.cons_append, removeClient, if_neg (h x (List.mem_cons_self _ _))]
    rw [ih fun y hy => h y (List.mem_cons_of_mem _ hy)]

lemma removeClient_eq_filter (c : Session) (l : List Session)
    (hnd : (l.map Session.sid).Nodup) :
    removeClient c l = l.filter (fun x => x.sid != c.sid) := by
  induction l with
  | nil => rfl
  | cons x xs ih =>
    rw [List.map_cons, List.nodup_cons] at hnd
    by_cases hx : x.sid = c.sid
    · have hneg : ¬((x.sid != c.sid) = true) := by simp [hx]
      have hfresh : ∀ y ∈ xs, y.sid ≠ c.sid := by
        intro y hy hcy
        apply hnd.1
        rw [hx, ← hcy]
        exact List.mem_map_of_mem Session.sid hy
      rw [removeClient, if_pos hx, List.filter_cons, if_neg hneg,
        filter_ne_fresh xs c.sid hfresh]
    · have hpos : (x.sid != c.sid) = true := by simpa [bne_iff_ne] using hx
      rw [removeClient, if_neg hx, List.filter_cons, if_pos hpos, ih hnd.2]

lemma sid_nodup_removeClient (c : Session) (l : List Session)
    (hnd : (l.map Session.sid).Nodup) : ((removeClient c l).map Session.sid).Nodup :=
  hnd.sublist (List.Sublist.map Session.sid (removeClient_sublist c l))

lemma applyOps_sid_nodup (ops : List RegOp) :
    ∀ l : List Session, (l.map Session.sid).Nodup → freshAddsB ops l = true →
      ((applyOps ops l).map Session.sid).Nodup := by
  induction ops with
  | nil => intro l h _; simpa [applyOps] using h
  | cons op ops ih =>
    intro l h hf
    cases op with
    | add c =>
      rw [freshAddsB, Bool.and_eq_true, decide_eq_true_eq] at hf
      rw [applyOps, applyOp]
      refine ih _ ?_ hf.2
      rw [List.map_append, List.nodup_append]
      exact ⟨h, List.nodup_singleton _, by simpa using fun hmem => hf.1 hmem⟩
    | remove c =>
      rw [freshAddsB] at hf
      rw [applyOps, applyOp]
      exact ih _ (sid_nodup_removeClient c l h) hf

lemma applyOps_sid_absent (ops : List RegOp) :
    ∀ (l : List Session) (c : Session), c.sid ∉ l.map Session.sid →
      (∀ s : Session, RegOp.add s ∈ ops → s.sid ≠ c.sid) →
      c.sid ∉ (applyOps ops l).map Session.sid := by
  induction ops with
  | nil => intro l c h _; simpa [applyOps] using h
  | cons op ops ih =>
    intro l c h hadd
    cases op with
    | add s =>
      rw [applyOps, applyOp]
      refine ih _ _ ?_ fun s' hs' => hadd s' (List.mem_cons_of_mem _ hs')
      rw [List.map_append, List.mem_append]
      rintro (hmem | hmem)
      · exact h hmem
      · have hcs : c.sid = s.sid := by simpa using hmem
        exact hadd s (List.mem_cons_self _ _) hcs.symm
    | remove s =>
      rw [applyOps, applyOp]
      refine ih _ _ ?_ fun s' hs' => hadd s' (List.mem_cons_of_mem _ hs')
      intro hmem
      exact h ((List.Sublist.map Session.sid (removeClient_sublist s l)).subset hmem)

lemma lockDelta_cons_lock (l : List Ev) : lockDelta (Ev.lock :: l) = 1 + lockDelta l := by
  simp [lockDelta, evDelta]

lemma lockDelta_fanWrites (cs : List Session) (msg : String) :
    lockDelta (cs.map (fun c => Ev.fanWrite c.sid msg)) = 0 := by
  rw [lockDelta, List.map_map]
  refine List.sum_eq_zero fun x hx => ?_
  rw [List.mem_map] at hx
  obtain ⟨c, _, rfl⟩ := hx
  rfl

lemma lockDelta_take_of_zero (fans : List Ev) (hf : ∀ e ∈ fans, evDelta e = 0) (k : Nat) :
    lockDelta ((Ev.lock :: fans).take (k + 1)) = 1 := by
  rw [List.take_succ_cons, lockDelta_cons_lock]
  have : lockDelta (fans.take k) = 0 := by
    refine List.sum_eq_zero fun x hx => ?_
    rw [List.mem_map] at hx
    obtain ⟨e, he, rfl⟩ := hx
    exact hf e (List.take_subset _ _ he)
  rw [this]
  norm_num

lemma lockDelta_append (a b : List Ev) : lockDelta (a ++ b) = lockDelta a + lockDelta b := by
  simp [lockDelta]

/-- C4: an input line equal to "/quit" under case-insensitive comparison ends
the session's message loop with the state unchanged — the line is neither
broadcast nor appended to history and no later line is processed — and the
session's teardown removes it from the registry and then produces exactly one
leave notice, written to every still-registered session and appended to the
history once, with the removal preceding the leave broadcast. -/
theorem C4_quit (ts l : String) (c : Session) (rest : List String) (st st' : ServerState)
    (hq : goToLower l = "/quit") :
    messageLoop ts c (l :: rest) st = st ∧
    (teardown c st').clients = removeClient c st'.clients ∧
    (teardown c st').chatHistory = st'.chatHistory ++ [leaveMsg c.username] ∧
    (teardown c st').outputs
      = st'.outputs
        ++ (removeClient c st'.clients).map (fun x => (x.sid, leaveMsg c.username)) ∧
    (teardown c st').activeClients = st'.activeClients - 1 := by
  refine ⟨?_, ?_, ?_, ?_, ?_⟩ <;>
    simp [messageLoop, hq, teardown, notifyLeave, broadcastMessage, fanTargets]

/-- Witness for C4 at a concrete mixed-case quit line. -/
theorem C4_quit_wit :
    goToLower "/QuIt" = "/quit" ∧
    (messageLoop "12:00" alice ("/QuIt" :: ["hello"]) stA = stA ∧
      (teardown alice stA).clients = removeClient alice stA.clients ∧
      (teardown alice stA).chatHistory = stA.chatHistory ++ [leaveMsg alice.username] ∧
      (teardown alice stA).outputs
        = stA.outputs
          ++ (removeClient alice stA.clients).map (fun x => (x.sid, leaveMsg alice.username)) ∧
      (teardown alice stA).activeClients = stA.activeClients - 1) :=
  ⟨by decide, C4_quit "12:00" "/QuIt" alice ["hello"] stA stA (by decide)⟩

/-- C5: an input line that is empty or all white space changes neither the
history nor the registry, and the output stream of every session other than
the sender is untouched. -/
theorem C5_blank_ignored (ts m : String) (s : Session) (st : ServerState)
    (h : goTrimSpace m = "") :
    (sendMessage ts s m st).chatHistory = st.chatHistory ∧
    (sendMessage ts s m st).clients = st.clients ∧
    ∀ c : Session, c.sid ≠ s.sid →
      (sendMessage ts s m st).outputs.filter (fun e => e.1 == c.sid)
        = st.outputs.filter (fun e => e.1 == c.sid) := by
  refine ⟨by simp [sendMessage, h], by simp [sendMessage, h], ?_⟩
  intro c hc
  simp [sendMessage, h, List.filter_append, Ne.symm hc]

/-- Witness for C5 at a whitespace-only line. -/
theorem C5_blank_ignored_wit :
    goTrimSpace "  \t " = "" ∧
    ((sendMessage "12:00" alice "  \t " stAB).chatHistory = stAB.chatHistory ∧
      (sendMessage "12:00" alice "  \t " stAB).clients = stAB.clients ∧
      ∀ c : Session, c.sid ≠ alice.sid →
        (sendMessage "12:00" alice "  \t " stAB).outputs.filter (fun e => e.1 == c.sid)
          = stAB.outputs.filter (fun e => e.1 == c.sid)) :=
  ⟨by decide, C5_blank_ignored "12:00" "  \t " alice stAB (by decide)⟩

/-- C9: on blank input the sender still receives, directly, exactly one line
consisting of the timestamp and username prefix with no message text, and
nothing is appended to history; the only new output write is that echo. -/
theorem C9_blank_echo (ts m : String) (s : Session) (st : ServerState)
    (h : goTrimSpace m = "") :
    (sendMessage ts s m st).outputs = st.outputs ++ [(s.sid, emptyEcho ts s.username)] ∧
    emptyEcho ts s.username = "\x1b[36m[" ++ ts ++ "][" ++ s.username ++ "]:\x1b[0m\n" ∧
    (sendMessage ts s m st).chatHistory = st.chatHistory :=
  ⟨by simp [sendMessage, h], rfl, by simp [sendMessage, h]⟩

/-- Witness for C9 at an empty line. -/
theorem C9_blank_echo_wit :
    goTrimSpace "" = "" ∧
    ((sendMessage "12:00" bob "" stAB).outputs
        = stAB.outputs ++ [(bob.sid, emptyEcho "12:00" bob.username)] ∧
      emptyEcho "12:00" bob.username
        = "\x1b[36m[" ++ "12:00" ++ "][" ++ bob.username ++ "]:\x1b[0m\n" ∧
      (sendMessage "12:00" bob "" stAB).chatHistory = stAB.chatHistory) :=
  ⟨by decide, C9_blank_echo "12:00" "" bob stAB (by decide)⟩

/-- C6: when an accept happens with the active-session count at or above the
ceiling, the connection is sent the rejection line and is not admitted: the
registry and the counter are unchanged, and the accept loop goes on to
process the remaining connections exactly as it otherwise would. -/
theorem C6_admission (st : ServerState) (sid : Nat) (rest : List Nat)
    (h : maxClients ≤ st.activeClients) :
    acceptOne st sid = ({ st with outputs := st.outputs ++ [(sid, rejectionLine)] }, false) ∧
    (acceptOne st sid).1.clients = st.clients ∧
    (acceptOne st sid).1.activeClients = st.activeClients ∧
    (acceptLoop st (sid :: rest)).1
      = (acceptLoop { st with outputs := st.outputs ++ [(sid, rejectionLine)] } rest).1 ∧
    (acceptLoop st (sid :: rest)).2
      = (acceptLoop { st with outputs := st.outputs ++ [(sid, rejectionLine)] } rest).2 := by
  have h1 : acceptOne st sid
      = ({ st with outputs := st.outputs ++ [(sid, rejectionLine)] }, false) := by
    rw [acceptOne, if_pos h]
  refine ⟨h1, ?_, ?_, ?_, ?_⟩ <;> simp [acceptLoop, h1]

/-- Witness for C6 with the counter exactly at the ceiling. -/
theorem C6_admission_wit :
    maxClients ≤ stFull.activeClients ∧
    (acceptOne stFull 7
        = ({ stFull with outputs := stFull.outputs ++ [(7, rejectionLine)] }, false) ∧
      (acceptOne stFull 7).1.clients = stFull.clients ∧
      (acceptOne stFull 7).1.activeClients = stFull.activeClients ∧
      (acceptLoop stFull (7 :: [8])).1
        = (acceptLoop { stFull with outputs := stFull.outputs ++ [(7, rejectionLine)] } [8]).1 ∧
      (acceptLoop stFull (7 :: [8])).2
        = (acceptLoop { stFull with outputs := stFull.outputs ++ [(7, rejectionLine)] } [8]).2) :=
  ⟨by decide, C6_admission stFull 7 [8] (by decide)⟩

/-- C10: sessions are told apart by identity, never by username: two
registered sessions carrying the same username are two registry entries,
the broadcast exclusion skips only the sender's own session object — each
still receives the other's messages — and removal deletes only the
departing object's entry, leaving the same-named other session registered. -/
theorem C10_identity (a b : Session) (m : String) (st : ServerState)
    (_hname : a.username = b.username) (hid : a.sid ≠ b.sid) (hcl : st.clients = [a, b]) :
    st.clients.length = 2 ∧
    (broadcastMessage (some a) m st).outputs = st.outputs ++ [(b.sid, m)] ∧
    (broadcastMessage (some b) m st).outputs = st.outputs ++ [(a.sid, m)] ∧
    removeClient a st.clients = [b] ∧
    b ∈ removeClient a st.clients := by
  refine ⟨?_, ?_, ?_, ?_, ?_⟩ <;>
    simp [broadcastMessage, fanTargets, hcl, removeClient, hid, Ne.symm hid, bne_iff_ne,
      List.filter_cons]

/-- Witness for C10 with two sessions both named "bob". -/
theorem C10_identity_wit :
    (Session.mk 0 "bob").username = bob.username ∧
    ((⟨[Session.mk 0 "bob", bob], [], 2, []⟩ : ServerState).clients.length = 2 ∧
      (broadcastMessage (some (Session.mk 0 "bob")) "x"
          ⟨[Session.mk 0 "bob", bob], [], 2, []⟩).outputs
        = (⟨[Session.mk 0 "bob", bob], [], 2, []⟩ : ServerState).outputs ++ [(bob.sid, "x")] ∧
      (broadcastMessage (some bob) "x" ⟨[Session.mk 0 "bob", bob], [], 2, []⟩).outputs
        = (⟨[Session.mk 0 "bob", bob], [], 2, []⟩ : ServerState).outputs
            ++ [((Session.mk 0 "bob").sid, "x")] ∧
      removeClient (Session.mk 0 "bob")
          (⟨[Session.mk 0 "bob", bob], [], 2, []⟩ : ServerState).clients = [bob] ∧
      bob ∈ removeClient (Session.mk 0 "bob")
          (⟨[Session.mk 0 "bob", bob], [], 2, []⟩ : ServerState).clients) :=
  ⟨by decide,
    C10_identity (Session.mk 0 "bob") bob "x" ⟨[Session.mk 0 "bob", bob], [], 2, []⟩
      (by decide) (by decide) rfl⟩

/-- C7: the registry invariant.  `removeClient` is a no-op (not an error)
when the session is absent; with distinct identities it deletes exactly the
departing session's entry; across every operation sequence whose adds carry
fresh identities (as Go pointer allocation guarantees), each session occurs
at most once in the list; and a session never present and never added never
appears — membership holds only between registration and deregistration. -/
theorem C7_registry :
    (∀ (l : List Session) (c : Session),
        (∀ x ∈ l, x.sid ≠ c.sid) → removeClient c l = l) ∧
    (∀ (l : List Session) (c : Session), (l.map Session.sid).Nodup →
        removeClient c l = l.filter (fun x => x.sid != c.sid)) ∧
    (∀ (ops : List RegOp) (l : List Session), (l.map Session.sid).Nodup →
        freshAddsB ops l = true → ((applyOps ops l).map Session.sid).Nodup) ∧
    (∀ (ops : List RegOp) (l : List Session) (c : Session),
        c.sid ∉ l.map Session.sid →
        (∀ s : Session, RegOp.add s ∈ ops → s.sid ≠ c.sid) →
        c.sid ∉ (applyOps ops l).map Session.sid) :=
  ⟨fun l c h => removeClient_absent c l h,
   fun l c h => removeClient_eq_filter c l h,
   fun ops l h hf => applyOps_sid_nodup ops l h hf,
   fun ops l c h hadd => applyOps_sid_absent ops l c h hadd⟩

/-- Witness for C7 on concrete registries and operation sequences. -/
theorem C7_registry_wit :
    removeClient bob [alice] = [alice] ∧
    removeClient alice [alice, bob] = [alice, bob].filter (fun x => x.sid != alice.sid) ∧
    ((applyOps [RegOp.add alice, RegOp.add bob, RegOp.remove alice] []).map
        Session.sid).Nodup ∧
    bob.sid ∉ (applyOps [RegOp.remove alice] [alice]).map Session.sid :=
  ⟨C7_registry.1 [alice] bob (by decide),
   C7_registry.2.1 [alice, bob] alice (by decide),
   C7_registry.2.2.1 [RegOp.add alice, RegOp.add bob, RegOp.remove alice] []
     (by decide) (by decide),
   C7_registry.2.2.2 [RegOp.remove alice] [alice] bob (by decide)
     (by intro s hs; simp at hs)⟩

/-- C8: when the stream ends before any non-empty line during username
selection, `getUsername` yields the literal "unknown" and the session still
runs the full lifecycle: it is registered, the "unknown has joined the chat"
notice is broadcast to the pre-existing sessions and appended to history,
the whole history (the join notice included) is replayed to it, and teardown
appends and broadcasts the matching leave notice, leaving the registry as it
started. -/
theorem C8_unknown_user (ts : String) (sid : Nat) (lines : List String) (st : ServerState)
    (hlines : ∀ l ∈ lines, l = "") (hfresh : ∀ x ∈ st.clients, x.sid ≠ sid) :
    (getUsername lines).1 = "unknown" ∧
    (⟨sid, "unknown"⟩ : Session) ∈ (joinPhase ⟨sid, "unknown"⟩ st).clients ∧
    (handleConnection ts sid lines st).chatHistory
      = st.chatHistory ++ [joinMsg "unknown", leaveMsg "unknown"] ∧
    (handleConnection ts sid lines st).outputs
      = st.outputs
        ++ st.clients.map (fun x => (x.sid, joinMsg "unknown"))
        ++ (st.chatHistory ++ [joinMsg "unknown"]).map (fun msg => (sid, msg))
        ++ st.clients.map (fun x => (x.sid, leaveMsg "unknown")) ∧
    (handleConnection ts sid lines st).clients = st.clients := by
  have hg : getUsername lines = ("unknown", []) := getUsername_all_empty lines hlines
  have hrm : removeClient ⟨sid, "unknown"⟩ (st.clients ++ [⟨sid, "unknown"⟩]) = st.clients :=
    removeClient_append_self _ _ hfresh
  have hft : (st.clients ++ [(⟨sid, "unknown"⟩ : Session)]).filter (fun c => c.sid != sid)
      = st.clients := by
    rw [List.filter_append, filter_ne_fresh st.clients sid hfresh]
    simp
  refine ⟨by rw [hg], ?_, ?_, ?_, ?_⟩
  · simp [joinPhase, sendChatHistory, notifyJoin, broadcastMessage]
  · simp [handleConnection, hg, messageLoop, joinPhase, notifyJoin, notifyLeave,
      sendChatHistory, broadcastMessage, teardown, fanTargets, hft, hrm, List.append_assoc]
  · simp [handleConnection, hg, messageLoop, joinPhase, notifyJoin, notifyLeave,
      sendChatHistory, broadcastMessage, teardown, fanTargets, hft, hrm, List.append_assoc]
  · simp [handleConnection, hg, messageLoop, joinPhase, notifyJoin, notifyLeave,
      sendChatHistory, broadcastMessage, teardown, fanTargets, hft, hrm]

/-- Witness for C8: a client whose stream held only empty lines. -/
theorem C8_unknown_user_wit :
    (∀ l ∈ (["", ""] : List String), l = "") ∧
    ((getUsername ["", ""]).1 = "unknown" ∧
      (⟨7, "unknown"⟩ : Session) ∈ (joinPhase ⟨7, "unknown"⟩ stA).clients ∧
      (handleConnection "12:00" 7 ["", ""] stA).chatHistory
        = stA.chatHistory ++ [joinMsg "unknown", leaveMsg "unknown"] ∧
      (handleConnection "12:00" 7 ["", ""] stA).outputs
        = stA.outputs
          ++ stA.clients.map (fun x => (x.sid, joinMsg "unknown"))
          ++ (stA.chatHistory ++ [joinMsg "unknown"]).map (fun msg => (7, msg))
          ++ stA.clients.map (fun x => (x.sid, leaveMsg "unknown")) ∧
      (handleConnection "12:00" 7 ["", ""] stA).clients = stA.clients) :=
  ⟨by decide, C8_unknown_user "12:00" 7 ["", ""] stA (by decide) (by decide)⟩

/-- C1 counterexample: with an empty server, a joining session's history
replay is `[joinMsg "alice"]` — it contains the session's own join notice —
while the history appended before the session's registration is empty.  The
code (main.go:112-114) appends the join notice to the log and only then
replays, so the replay is not "the messages appended before registration"
and the join notice does appear in it. -/
theorem C1_cex :
    (((joinPhase alice st0).outputs.drop st0.outputs.length).filter
        (fun e => e.1 == alice.sid)).map Prod.snd = [joinMsg "alice"] ∧
    st0.chatHistory = [] ∧
    joinMsg "alice" ∈ (((joinPhase alice st0).outputs.drop st0.outputs.length).filter
        (fun e => e.1 == alice.sid)).map Prod.snd := by
  refine ⟨by decide, rfl, by decide⟩

/-- C1 (amended): the history replay delivered to a newly joined session S
is exactly the sequence of messages appended to the History Log before the
replay runs, in append order, with no gaps and no duplicates — and that
sequence is the pre-registration history followed by S's own join notice,
which is appended after S's registration but before S's replay, and so
appears as the final element of S's replay. -/
theorem C1_replay (c : Session) (st : ServerState)
    (hfresh : ∀ x ∈ st.clients, x.sid ≠ c.sid) :
    (((joinPhase c st).outputs.drop st.outputs.length).filter
        (fun e => e.1 == c.sid)).map Prod.snd
      = st.chatHistory ++ [joinMsg c.username] ∧
    (joinPhase c st).chatHistory = st.chatHistory ++ [joinMsg c.username] := by
  have hft : (st.clients ++ [c]).filter (fun x => x.sid != c.sid) = st.clients := by
    rw [List.filter_append, filter_ne_fresh st.clients c.sid hfresh]
    simp
  constructor
  · have houts : (joinPhase c st).outputs
        = st.outputs
          ++ (st.clients.map (fun x => (x.sid, joinMsg c.username))
            ++ (st.chatHistory ++ [joinMsg c.username]).map (fun m => (c.sid, m))) := by
      simp [joinPhase, sendChatHistory, notifyJoin, broadcastMessage, fanTargets, hft,
        List.append_assoc]
    rw [houts, List.drop_left, List.filter_append]
    have hA : (st.clients.map (fun x => (x.sid, joinMsg c.username))).filter
        (fun e => e.1 == c.sid) = [] := by
      rw [List.filter_eq_nil_iff]
      intro a ha
      rw [List.mem_map] at ha
      obtain ⟨x, hx, rfl⟩ := ha
      simpa using hfresh x hx
    have hB : ((st.chatHistory ++ [joinMsg c.username]).map (fun m => (c.sid, m))).filter
        (fun e => e.1 == c.sid)
        = (st.chatHistory ++ [joinMsg c.username]).map (fun m => (c.sid, m)) := by
      rw [List.filter_eq_self]
      intro a ha
      rw [List.mem_map] at ha
      obtain ⟨m, hm, rfl⟩ := ha
      simp
    rw [hA, hB, List.nil_append, List.map_map]
    simp
  · simp [joinPhase, sendChatHistory, notifyJoin, broadcastMessage]

/-- Witness for C1's amended statement: a second client joins a server with
one client and one logged message. -/
theorem C1_replay_wit :
    (∀ x ∈ stA.clients, x.sid ≠ bob.sid) ∧
    ((((joinPhase bob stA).outputs.drop stA.outputs.length).filter
        (fun e => e.1 == bob.sid)).map Prod.snd
      = stA.chatHistory ++ [joinMsg bob.username] ∧
    (joinPhase bob stA).chatHistory = stA.chatHistory ++ [joinMsg bob.username]) :=
  ⟨by decide, C1_replay bob stA (by decide)⟩

/-- C3: a non-blank input line from sender S is formatted once and written
exactly once to every registered session other than S — the fan-out targets
are the registered sessions minus S, each appearing exactly once — S itself
gets exactly one copy, via the single direct echo write that follows the
fan-out (never via the fan-out, which excludes S's identity), and the
message is appended to the History Log exactly once. -/
theorem C3_chat_delivery (ts m : String) (s : Session) (st : ServerState)
    (hm : ¬goTrimSpace m = "") (hnd : (st.clients.map Session.sid).Nodup) :
    (sendMessage ts s m st).chatHistory = st.chatHistory ++ [chatMsg ts s.username m] ∧
    (sendMessage ts s m st).outputs
      = st.outputs
        ++ (fanTargets (some s) st.clients).map (fun c => (c.sid, chatMsg ts s.username m))
        ++ [(s.sid, chatMsg ts s.username m)] ∧
    ((fanTargets (some s) st.clients).map Session.sid).Nodup ∧
    (∀ c ∈ st.clients, c.sid ≠ s.sid →
      c.sid ∈ (fanTargets (some s) st.clients).map Session.sid) ∧
    s.sid ∉ (fanTargets (some s) st.clients).map Session.sid := by
  refine ⟨?_, ?_, ?_, ?_, ?_⟩
  · simp [sendMessage, hm, broadcastMessage]
  · simp [sendMessage, hm, broadcastMessage, List.append_assoc]
  · exact hnd.sublist (List.Sublist.map Session.sid (List.filter_sublist _))
  · intro c hc hne
    rw [List.mem_map]
    refine ⟨c, ?_, rfl⟩
    rw [fanTargets, List.mem_filter]
    exact ⟨hc, by simpa [bne_iff_ne] using hne⟩
  · intro hmem
    rw [fanTargets, List.mem_map] at hmem
    obtain ⟨x, hx, hxs⟩ := hmem
    rw [List.mem_filter, bne_iff_ne] at hx
    exact hx.2 hxs

/-- Witness for C3: "hello" from alice in a two-client server. -/
theorem C3_chat_delivery_wit :
    ¬goTrimSpace "hello" = "" ∧
    ((sendMessage "12:00" alice "hello" stAB).chatHistory
        = stAB.chatHistory ++ [chatMsg "12:00" alice.username "hello"] ∧
      (sendMessage "12:00" alice "hello" stAB).outputs
        = stAB.outputs
          ++ (fanTargets (some alice) stAB.clients).map
              (fun c => (c.sid, chatMsg "12:00" alice.username "hello"))
          ++ [(alice.sid, chatMsg "12:00" alice.username "hello")] ∧
      ((fanTargets (some alice) stAB.clients).map Session.sid).Nodup ∧
      (∀ c ∈ stAB.clients, c.sid ≠ alice.sid →
        c.sid ∈ (fanTargets (some alice) stAB.clients).map Session.sid) ∧
      alice.sid ∉ (fanTargets (some alice) stAB.clients).map Session.sid) :=
  ⟨by decide, C3_chat_delivery "12:00" "hello" alice stAB (by decide) (by decide)⟩

/-- C2 counterexample: in the event trace of a non-blank message sent by
alice with alice and bob registered, the lock depth drops to zero between
the fan-out writes and the history append — the fan-out and the append are
not performed under one continuous hold of the lock.  `broadcastMessage`
(main.go:234-235) releases the lock when it returns, and `sendMessage`
re-acquires it at main.go:187 only for the append. -/
theorem C2_cex :
    continuousLockSpan (sendMessageTrace "12:00" alice "hi" [alice, bob]) = false := by
  decide

/-- C2 (amended): every chat-message broadcast performs its per-session
fan-out entirely within one critical section of the shared lock (the depth
stays at one throughout the fan-out), then releases the lock — the section
is balanced, so the sender echo that follows runs with the lock free — and
appends the message to the History Log under a second, separate acquisition
of the same lock; fan-out and history-append are not atomic together. -/
theorem C2_lock_release (ts m : String) (s : Session) (cs : List Session)
    (h : ¬goTrimSpace m = "") :
    ∃ fans : List Ev,
      sendMessageTrace ts s m cs
        = Ev.lock :: fans ++ [Ev.unlock, Ev.echoWrite s.sid (chatMsg ts s.username m),
            Ev.lock, Ev.histAppend (chatMsg ts s.username m), Ev.unlock] ∧
      (∀ e ∈ fans, isFan e = true) ∧
      (∀ e ∈ fans, evDelta e = 0) ∧
      lockDelta (Ev.lock :: fans ++ [Ev.unlock]) = 0 ∧
      (∀ k : Nat, lockDelta ((Ev.lock :: fans).take (k + 1)) = 1) := by
  refine ⟨(fanTargets (some s) cs).map (fun c => Ev.fanWrite c.sid (chatMsg ts s.username m)),
    ?_, ?_, ?_, ?_, ?_⟩
  · simp [sendMessageTrace, broadcastTrace, h, List.append_assoc]
  · intro e he
    rw [List.mem_map] at he
    obtain ⟨c, _, rfl⟩ := he
    rfl
  · intro e he
    rw [List.mem_map] at he
    obtain ⟨c, _, rfl⟩ := he
    rfl
  · rw [lockDelta_append, lockDelta_cons_lock, lockDelta_fanWrites]
    simp [lockDelta, evDelta]
  · intro k
    refine lockDelta_take_of_zero _ (fun e he => ?_) k
    rw [List.mem_map] at he
    obtain ⟨c, _, rfl⟩ := he
    rfl

/-- Witness for C2's amended statement at a concrete trace. -/
theorem C2_lock_release_wit :
    ¬goTrimSpace "hi" = "" ∧
    (∃ fans : List Ev,
      sendMessageTrace "12:00" alice "hi" [alice, bob]
        = Ev.lock :: fans ++ [Ev.unlock,
            Ev.echoWrite alice.sid (chatMsg "12:00" alice.username "hi"),
            Ev.lock, Ev.histAppend (chatMsg "12:00" alice.username "hi"), Ev.unlock] ∧
      (∀ e ∈ fans, isFan e = true) ∧
      (∀ e ∈ fans, evDelta e = 0) ∧
      lockDelta (Ev.lock :: fans ++ [Ev.unlock]) = 0 ∧
      (∀ k : Nat, lockDelta ((Ev.lock :: fans).take (k + 1)) = 1)) :=
  ⟨by decide, C2_lock_release "12:00" "hi" alice [alice, bob] (by decide)⟩
